import Mathlib

/-!
Shallow embedding of the fc-agent control plane (`internal/agent/agent.go`)
of the fc-macos-nested repository, together with theorems settling the
spec claims about it.

Modelling conventions:
* Go maps (`a.microVMs`) become association lists (`List MicroVM`); the list
  order stands for one possible Go map iteration order (Go leaves the order
  unspecified, so any property claimed for the real code must hold for every
  list order, and a single list order suffices for a counterexample).
* Pointer handles (`*exec.Cmd`, `io.WriteCloser`, `io.ReadCloser`,
  `*httputil.ReverseProxy`) are modelled by their non-nilness as `Bool`
  fields (`true` = non-nil).
* Fallible OS interactions (process signal delivery, HTTP round trips to the
  Firecracker socket) are modelled by explicit oracle parameters; the agent
  functions are otherwise translated line by line from the Go source.
* Wall-clock values (`time.Now`) enter as explicit `now` parameters;
  `CreatedAt` timestamps, which no claim inspects, are omitted.
-/

namespace FCAgent

/-- `Config` from agent.go: the agent configuration. -/
structure Config where
  httpPort : Nat
  vsockPort : Nat
  firecrackerBin : String
  socketPath : String
  maxMicroVMs : Nat
deriving DecidableEq, Repr

/-- `MicroVMConfig` from agent.go: per-microVM configuration.  Go `int`
fields are modelled as `Int` (they can be negative). -/
structure MicroVMConfig where
  vcpus : Int
  memoryMiB : Int
  kernel : String
  rootfs : String
  bootArgs : String
deriving DecidableEq, Repr

/-- `MicroVM` from agent.go.  The handle fields `fcProcess`, `proxy`,
`consoleIn`, `consoleOut` record non-nilness of the corresponding Go
pointers; `started` is the started flag. -/
structure MicroVM where
  id : String
  name : String
  socketPath : String
  config : Option MicroVMConfig
  fcProcess : Bool
  proxy : Bool
  consoleIn : Bool
  consoleOut : Bool
  started : Bool
deriving DecidableEq, Repr

/-- `MicroVMInfo` from agent.go: the JSON status view (the `created_at`,
`cpu_percent` and `memory_used_mb` fields, inspected by no claim, are
omitted). -/
structure MicroVMInfo where
  id : String
  name : String
  running : Bool
  pid : Nat
  config : Option MicroVMConfig
deriving DecidableEq, Repr

/-- `CreateMicroVMRequest` from agent.go, after JSON decoding: an absent
field decodes to the Go zero value, so the model carries the decoded
values only. -/
structure CreateMicroVMRequest where
  name : String
  kernel : String
  rootfs : String
  vcpus : Int
  memoryMiB : Int
  bootArgs : String
deriving DecidableEq, Repr

/-- `Agent` from agent.go: registry list (standing for the Go map in one
iteration order), monotone id counter, and the legacy singleton slot. -/
structure Agent where
  config : Config
  microVMs : List MicroVM
  idCounter : Nat
  legacyVM : Option MicroVM
deriving DecidableEq, Repr

/-- `New` from agent.go: constructs an agent, defaulting the HTTP port to
8080, the cap to 10 and the legacy socket path. -/
def newAgent (cfg : Config) : Agent :=
  let cfg :=
    { cfg with
      httpPort := if cfg.httpPort = 0 then 8080 else cfg.httpPort
      maxMicroVMs := if cfg.maxMicroVMs = 0 then 10 else cfg.maxMicroVMs
      socketPath := if cfg.socketPath = "" then "/tmp/firecracker.socket" else cfg.socketPath }
  { config := cfg, microVMs := [], idCounter := 0, legacyVM := none }

/-- `stopFirecrackerForVM` from agent.go, as a pure transition.
`signalOk` tells whether `Process.Signal(os.Interrupt)` returned nil;
`killOk` whether `Process.Kill()` returned nil (both fail with
`ErrProcessDone` when the subprocess is already gone).  Returns the updated
record and `true` when the Go function returns a nil error.  Note the Go
code clears `started`, `fcProcess` and `proxy` only on the signal-delivered
path, and never clears `consoleIn`/`consoleOut`. -/
def stopFirecrackerForVM (vm : MicroVM) (signalOk killOk : Bool) : MicroVM × Bool :=
  if vm.fcProcess = false ∨ vm.started = false then
    (vm, true)
  else if signalOk = false then
    (vm, killOk)
  else
    ({ vm with started := false, fcProcess := false, proxy := false }, true)

/-- Events that mutate a single record's handle fields, each one performed
under the record lock in the Go source. -/
inductive VMEvent where
  /-- `startFirecrackerForVM` run to completion: process spawned, pipes
  attached, socket became connectable, proxy built, `started` set. -/
  | spawnOk : VMEvent
  /-- `startFirecrackerForVM` returning at the `StdinPipe` error: only
  `vm.fcProcess` was assigned. -/
  | spawnFailStdin : VMEvent
  /-- `startFirecrackerForVM` returning at the `StdoutPipe` error:
  `fcProcess` and `consoleIn` were assigned. -/
  | spawnFailStdout : VMEvent
  /-- `startFirecrackerForVM` returning at the `Start` error or at the
  socket-wait timeout: `fcProcess`, `consoleIn`, `consoleOut` assigned,
  proxy never built, `started` never set. -/
  | spawnFailSocket : VMEvent
  /-- The asynchronous monitor goroutine observing subprocess exit: flips
  `started` to false and clears `proxy`, touching nothing else. -/
  | asyncExit : VMEvent
  /-- `stopFirecrackerForVM` with the given signal/kill outcomes. -/
  | stop (signalOk killOk : Bool) : VMEvent
deriving DecidableEq, Repr

/-- One record-level event, translated from the corresponding code paths of
`startFirecrackerForVM`, the monitor goroutine, and
`stopFirecrackerForVM`. -/
def applyEvent (vm : MicroVM) : VMEvent → MicroVM
  | .spawnOk =>
      if vm.started then vm
      else { vm with fcProcess := true, consoleIn := true, consoleOut := true,
                     proxy := true, started := true }
  | .spawnFailStdin =>
      if vm.started then vm else { vm with fcProcess := true }
  | .spawnFailStdout =>
      if vm.started then vm else { vm with fcProcess := true, consoleIn := true }
  | .spawnFailSocket =>
      if vm.started then vm
      else { vm with fcProcess := true, consoleIn := true, consoleOut := true }
  | .asyncExit => { vm with started := false, proxy := false }
  | .stop sOk kOk => (stopFirecrackerForVM vm sOk kOk).1

/-- Run a sequence of record-level events. -/
def runEvents (vm : MicroVM) (es : List VMEvent) : MicroVM :=
  es.foldl applyEvent vm

/-- A freshly built record, as `createMicroVM` constructs it before any
spawn: all handles nil, `started` false. -/
def freshRecord (id name socketPath : String) (cfg : Option MicroVMConfig) : MicroVM :=
  { id := id, name := name, socketPath := socketPath, config := cfg,
    fcProcess := false, proxy := false, consoleIn := false, consoleOut := false,
    started := false }

/-- Go's `strings.HasPrefix(s, p)`: `s` begins with `p`.  Implemented by
structural recursion on the character lists so that it evaluates inside
the kernel (the core-library prefix test is an extern loop and does not). -/
def strHasPfx (p s : String) : Bool :=
  List.isPrefixOf p.data s.data

/-- `getVMByIDOrName` from agent.go: exact id lookup in the map, then one
scan accepting a name match or an id-prefix match (whichever record comes
first in iteration order), then the legacy slot by exact id or name. -/
def getVMByIDOrName (a : Agent) (idOrName : String) : Option MicroVM :=
  match a.microVMs.find? (fun vm => vm.id = idOrName) with
  | some vm => some vm
  | none =>
    match a.microVMs.find? (fun vm => vm.name = idOrName || strHasPfx idOrName vm.id) with
    | some vm => some vm
    | none =>
      match a.legacyVM with
      | some vm => if vm.id = idOrName ∨ vm.name = idOrName then some vm else none
      | none => none

/-- JSON values appearing in the bodies the orchestrator sends. -/
inductive JVal where
  | str : String → JVal
  | int : Int → JVal
  | bool : Bool → JVal
deriving DecidableEq, Repr

/-- One `PUT` issued by `configureAndStartVM`: the Unix socket it dials,
the request URL, and the JSON object body as a field list. -/
structure PutCall where
  socket : String
  url : String
  body : List (String × JVal)
deriving DecidableEq, Repr

/-- The `Timeout: 10 * time.Second` set on the orchestrator's HTTP client
in `configureAndStartVM`, in seconds. -/
def configClientTimeoutSeconds : Nat := 10

/-- Body of `PUT /boot-source` in `configureAndStartVM`. -/
def bootSourceBody (c : MicroVMConfig) : List (String × JVal) :=
  [("kernel_image_path", JVal.str c.kernel), ("boot_args", JVal.str c.bootArgs)]

/-- Body of `PUT /drives/rootfs` in `configureAndStartVM`. -/
def rootfsDriveBody (c : MicroVMConfig) : List (String × JVal) :=
  [("drive_id", JVal.str "rootfs"), ("path_on_host", JVal.str c.rootfs),
   ("is_root_device", JVal.bool true), ("is_read_only", JVal.bool false)]

/-- Body of `PUT /machine-config` in `configureAndStartVM`. -/
def machineConfigBody (c : MicroVMConfig) : List (String × JVal) :=
  [("vcpu_count", JVal.int c.vcpus), ("mem_size_mib", JVal.int c.memoryMiB)]

/-- Body of `PUT /actions` in `configureAndStartVM`. -/
def actionBody : List (String × JVal) :=
  [("action_type", JVal.str "InstanceStart")]

/-- The four calls of `configureAndStartVM`, in source order, all dialing
the record's own socket. -/
def fcSequence (vm : MicroVM) (c : MicroVMConfig) : List PutCall :=
  [⟨vm.socketPath, "http://localhost/boot-source", bootSourceBody c⟩,
   ⟨vm.socketPath, "http://localhost/drives/rootfs", rootfsDriveBody c⟩,
   ⟨vm.socketPath, "http://localhost/machine-config", machineConfigBody c⟩,
   ⟨vm.socketPath, "http://localhost/actions", actionBody⟩]

/-- `putJSON` from agent.go against a network oracle: `net url = none`
models a transport-level failure of `client.Do`, `net url = some code` a
response with that status; the call succeeds iff the status is < 400. -/
def putJSON (net : String → Option Nat) (url : String) : Bool :=
  match net url with
  | none => false
  | some code => decide (code < 400)

/-- Issue a list of PUT calls in order, stopping at the first failure; the
returned list is the trace of calls actually issued (the failing call
included), the flag tells whether every call succeeded. -/
def runPuts (net : String → Option Nat) : List PutCall → List PutCall × Bool
  | [] => ([], true)
  | c :: rest =>
      if putJSON net c.url then
        let r := runPuts net rest
        (c :: r.1, r.2)
      else ([c], false)

/-- `configureAndStartVM` from agent.go: with no config it errors before
any call; otherwise it issues the four-call sequence until the first
failure.  Returns the issued-call trace and success. -/
def configureAndStartVM (vm : MicroVM) (net : String → Option Nat) :
    List PutCall × Bool :=
  match vm.config with
  | none => ([], false)
  | some c => runPuts net (fcSequence vm c)

/-- Outcome of `createMicroVM`: HTTP status written, status view encoded
on 201, resulting agent state, whether `startFirecrackerForVM` was
invoked, and the trace of Firecracker calls issued. -/
structure CreateOutcome where
  status : Nat
  info : Option MicroVMInfo
  agent : Agent
  spawnAttempted : Bool
  calls : List PutCall
deriving Repr

/-- `createMicroVM` from agent.go, after JSON decoding succeeded.
`now` is `time.Now().Unix()`, `pid` the spawned process id, `spawnOk`
whether `startFirecrackerForVM` succeeds, `net` the Firecracker network
oracle.  Source order: validate, defaults, cap check (reader lock),
generate id and name, name-collision check (reader lock), spawn,
configure (rollback stop on failure), register (writer lock), 201. -/
def createMicroVM (a : Agent) (req : CreateMicroVMRequest) (now pid : Nat)
    (spawnOk : Bool) (net : String → Option Nat) : CreateOutcome :=
  if req.kernel = "" then ⟨400, none, a, false, []⟩
  else if req.rootfs = "" then ⟨400, none, a, false, []⟩
  else
    let vcpus := if req.vcpus = 0 then 1 else req.vcpus
    let memoryMiB := if req.memoryMiB = 0 then 128 else req.memoryMiB
    let bootArgs :=
      if req.bootArgs = "" then "console=ttyS0 reboot=k panic=1 pci=off" else req.bootArgs
    if a.config.maxMicroVMs ≤ a.microVMs.length then ⟨429, none, a, false, []⟩
    else
      let counter := a.idCounter + 1
      let id := s!"vm-{now}-{counter}"
      let name := if req.name = "" then s!"microvm-{counter}" else req.name
      let a1 := { a with idCounter := counter }
      if a.microVMs.any (fun vm => vm.name = name) then ⟨409, none, a1, false, []⟩
      else
        let socketPath := s!"/tmp/firecracker-{id}.socket"
        let cfg : MicroVMConfig :=
          { vcpus := vcpus, memoryMiB := memoryMiB, kernel := req.kernel,
            rootfs := req.rootfs, bootArgs := bootArgs }
        let vm0 := freshRecord id name socketPath (some cfg)
        if spawnOk = false then ⟨500, none, a1, true, []⟩
        else
          let vm1 := applyEvent vm0 .spawnOk
          let r := configureAndStartVM vm1 net
          if r.2 = false then ⟨500, none, a1, true, r.1⟩
          else
            ⟨201, some ⟨id, name, vm1.started, pid, some cfg⟩,
             { a1 with microVMs := a1.microVMs ++ [vm1] }, true, r.1⟩

/-- The JSON body `deleteMicroVM` writes on success:
`{"status": "deleted", "id": <id>}`. -/
structure DeleteBody where
  statusField : String
  idField : String
deriving DecidableEq, Repr

/-- `deleteMicroVM` from agent.go: `force` is whether the request carried
`?force=true`; `signalOk`/`killOk` are the stop outcomes.  On stop failure
without force it writes 500 and performs no registry delete (the record,
aliased by pointer in the registry, keeps whatever fields stop left);
otherwise it deletes the id from the registry and writes the JSON body
with the implicit 200 status (no `WriteHeader` call). -/
def deleteMicroVM (a : Agent) (vm : MicroVM) (force signalOk killOk : Bool) :
    Nat × Option DeleteBody × Agent :=
  let r := stopFirecrackerForVM vm signalOk killOk
  if r.2 = false ∧ force = false then
    (500, none,
     { a with microVMs := a.microVMs.map (fun w => if w.id = vm.id then r.1 else w) })
  else
    (200, some ⟨"deleted", vm.id⟩,
     { a with microVMs := a.microVMs.filter (fun w => w.id ≠ vm.id) })

/-- Target selection of `handleProxy` from agent.go, for a request with
the given path and optional `X-MicroVM-ID` header.  Returns the record the
request is proxied to (before the ensure-started step, which no claim
inspects) and the possibly updated agent (the legacy slot may be lazily
created).  The `/microvms/` branch resolves the path token; the header
branch resolves the header; otherwise the legacy slot is preferred, then
the first registry record in iteration order, and only with an empty
registry is the legacy record auto-created. -/
def handleProxyTarget (a : Agent) (path : String) (header : Option String) :
    Option MicroVM × Agent :=
  if strHasPfx "/microvms/" path then
    let token := ((path.drop "/microvms/".length).takeWhile (fun ch => ch ≠ '/'))
    (getVMByIDOrName a token, a)
  else
    match header with
    | some vmID => (getVMByIDOrName a vmID, a)
    | none =>
      match a.legacyVM with
      | some vm => (some vm, a)
      | none =>
        match a.microVMs with
        | v :: _ => (some v, a)
        | [] =>
          let vm := freshRecord "legacy" "default" a.config.socketPath none
          (some vm, { a with legacyVM := some vm })

/-- Program counter of one create request's registry interaction, the
three atomic lock holds of `createMicroVM`: the cap check under a reader
hold, the name check under a second reader hold, and the unconditional
insert under a writer hold. -/
inductive TPhase where
  | ready : TPhase
  | capOk : TPhase
  | nameOk : TPhase
  | done (status : Nat) : TPhase
deriving DecidableEq, Repr

/-- One atomic step of a create request holding the registry lock once:
phase `ready` performs the cap check, `capOk` the name-collision check,
`nameOk` the insert.  Returns the new phase and registry (of record
names). -/
def createStep (reg : List String) (maxVMs : Nat) (n : String) :
    TPhase → TPhase × List String
  | .ready => ((if maxVMs ≤ reg.length then .done 429 else .capOk), reg)
  | .capOk => ((if reg.any (fun m => m = n) then .done 409 else .nameOk), reg)
  | .nameOk => (.done 201, reg ++ [n])
  | .done k => (.done k, reg)

/-- State of two concurrent create requests racing on one registry. -/
structure TwoCreateState where
  reg : List String
  maxVMs : Nat
  n1 : String
  n2 : String
  t1 : TPhase
  t2 : TPhase
deriving DecidableEq, Repr

/-- Run a schedule over two concurrent creates: `true` lets request 1 take
its next atomic step, `false` request 2.  Every interleaving of the two
requests' lock holds is some schedule. -/
def runSchedule (s : TwoCreateState) : List Bool → TwoCreateState
  | [] => s
  | b :: rest =>
      let s' :=
        if b then
          let r := createStep s.reg s.maxVMs s.n1 s.t1
          { s with t1 := r.1, reg := r.2 }
        else
          let r := createStep s.reg s.maxVMs s.n2 s.t2
          { s with t2 := r.1, reg := r.2 }
      runSchedule s' rest

/-- Concrete config fixture used by witnesses and counterexamples. -/
def cfgFix : MicroVMConfig :=
  { vcpus := 2, memoryMiB := 512, kernel := "/k", rootfs := "/r",
    bootArgs := "console=ttyS0 reboot=k panic=1 pci=off" }

/-- Concrete agent config fixture. -/
def agentCfgFix : Config :=
  { httpPort := 8080, vsockPort := 0, firecrackerBin := "/usr/bin/firecracker",
    socketPath := "/tmp/firecracker.socket", maxMicroVMs := 10 }

/-- A running record fixture (all handles live). -/
def vmRunning : MicroVM :=
  { id := "vm-1-1", name := "web", socketPath := "/tmp/firecracker-vm-1-1.socket",
    config := some cfgFix, fcProcess := true, proxy := true, consoleIn := true,
    consoleOut := true, started := true }

/-- Agent fixture holding just `vmRunning`. -/
def agentOne : Agent :=
  { config := agentCfgFix, microVMs := [vmRunning], idCounter := 1, legacyVM := none }

/-- Helper: `runPuts` never invents calls — its trace is a prefix of the
call list it was given. -/
theorem runPuts_trace_append (net : String → Option Nat) (l : List PutCall) :
    ∃ rest, (runPuts net l).1 ++ rest = l := by
  induction l with
  | nil => exact ⟨[], rfl⟩
  | cons c rest ih =>
      by_cases h : putJSON net c.url = true
      · obtain ⟨r, hr⟩ := ih
        exact ⟨r, by simp [runPuts, h, hr]⟩
      · exact ⟨rest, by simp [runPuts, h]⟩

/-- Helper: `runPuts` succeeds iff every call in the list succeeds. -/
theorem runPuts_ok_iff (net : String → Option Nat) (l : List PutCall) :
    (runPuts net l).2 = true ↔ ∀ c ∈ l, putJSON net c.url = true := by
  induction l with
  | nil => simp [runPuts]
  | cons c rest ih =>
      by_cases h : putJSON net c.url = true
      · simp [runPuts, h, ih]
      · simp [runPuts, h]

/-- Helper: on success, `runPuts` issued every call. -/
theorem runPuts_ok_trace (net : String → Option Nat) (l : List PutCall)
    (h : (runPuts net l).2 = true) : (runPuts net l).1 = l := by
  induction l with
  | nil => rfl
  | cons c rest ih =>
      by_cases hc : putJSON net c.url = true
      · have h' : (runPuts net rest).2 = true := by
          simpa [runPuts, hc] using h
        simp [runPuts, hc, ih h']
      · simp [runPuts, hc] at h

/-- Helper: on failure, the trace is the successful head calls followed by
the single failing call, and nothing after it was issued. -/
theorem runPuts_fail_trace (net : String → Option Nat) (l : List PutCall)
    (h : (runPuts net l).2 = false) :
    ∃ pre fail, (runPuts net l).1 = pre ++ [fail] ∧
      putJSON net fail.url = false ∧ ∀ c ∈ pre, putJSON net c.url = true := by
  induction l with
  | nil => simp [runPuts] at h
  | cons c rest ih =>
      by_cases hc : putJSON net c.url = true
      · have h' : (runPuts net rest).2 = false := by
          simpa [runPuts, hc] using h
        obtain ⟨pre, fail, h1, h2, h3⟩ := ih h'
        refine ⟨c :: pre, fail, ?_, h2, ?_⟩
        · simp [runPuts, hc, h1]
        · intro x hx
          rcases List.mem_cons.mp hx with hx | hx
          · exact hx ▸ hc
          · exact h3 x hx
      · refine ⟨[], c, ?_, by simpa using hc, by simp⟩
        simp [runPuts, hc]

/-- Helper: every call in the trace comes from the given list. -/
theorem runPuts_trace_subset (net : String → Option Nat) (l : List PutCall) :
    ∀ c ∈ (runPuts net l).1, c ∈ l := by
  induction l with
  | nil => simp [runPuts]
  | cons c rest ih =>
      by_cases h : putJSON net c.url = true
      · intro x hx
        simp only [runPuts, h, if_pos] at hx
        rcases List.mem_cons.mp hx with hx | hx
        · simp [hx]
        · exact List.mem_cons_of_mem _ (ih x hx)
      · intro x hx
        simp only [runPuts, h] at hx
        simp_all

/-- Helper: a stop that returns an error has not modified the record (the
only erroring path returns before any field assignment). -/
theorem stopFirecrackerForVM_error_eq (vm : MicroVM) (sOk kOk : Bool)
    (h : (stopFirecrackerForVM vm sOk kOk).2 = false) :
    (stopFirecrackerForVM vm sOk kOk).1 = vm := by
  unfold stopFirecrackerForVM at h ⊢
  by_cases h1 : vm.fcProcess = false ∨ vm.started = false
  · simp [h1] at h
  · by_cases h2 : sOk = false
    · simp [h1, h2]
    · simp [h1, h2] at h

/-- The handle-consistency invariant actually maintained by the code:
while started, all four handles are non-nil, and the proxy handle is
non-nil exactly when started. -/
def handleInv (vm : MicroVM) : Prop :=
  (vm.started = true →
    vm.fcProcess = true ∧ vm.consoleIn = true ∧ vm.consoleOut = true ∧ vm.proxy = true) ∧
  (vm.proxy = true ↔ vm.started = true)

/-- Helper: every record-level event preserves `handleInv`. -/
theorem handleInv_applyEvent (vm : MicroVM) (e : VMEvent) (h : handleInv vm) :
    handleInv (applyEvent vm e) := by
  obtain ⟨h1, h2⟩ := h
  cases e with
  | spawnOk =>
      by_cases hs : vm.started = true
      · simpa [applyEvent, hs] using ⟨h1, h2⟩
      · simp [applyEvent, hs, handleInv]
  | spawnFailStdin =>
      by_cases hs : vm.started = true
      · simpa [applyEvent, hs] using ⟨h1, h2⟩
      · have hp : vm.proxy = false := by
          rcases Bool.eq_false_or_eq_true vm.proxy with hp | hp
          · exact absurd (h2.mp hp) (by simpa using hs)
          · exact hp
        simp [applyEvent, hs, handleInv, hp]
  | spawnFailStdout =>
      by_cases hs : vm.started = true
      · simpa [applyEvent, hs] using ⟨h1, h2⟩
      · have hp : vm.proxy = false := by
          rcases Bool.eq_false_or_eq_true vm.proxy with hp | hp
          · exact absurd (h2.mp hp) (by simpa using hs)
          · exact hp
        simp [applyEvent, hs, handleInv, hp]
  | spawnFailSocket =>
      by_cases hs : vm.started = true
      · simpa [applyEvent, hs] using ⟨h1, h2⟩
      · have hp : vm.proxy = false := by
          rcases Bool.eq_false_or_eq_true vm.proxy with hp | hp
          · exact absurd (h2.mp hp) (by simpa using hs)
          · exact hp
        simp [applyEvent, hs, handleInv, hp]
  | asyncExit => simp [applyEvent, handleInv]
  | stop sOk kOk =>
      unfold applyEvent stopFirecrackerForVM
      by_cases hg : vm.fcProcess = false ∨ vm.started = false
      · simpa [hg] using ⟨h1, h2⟩
      · by_cases h2' : sOk = false
        · simpa [hg, h2'] using ⟨h1, h2⟩
        · simp [hg, h2', handleInv]

/-- Helper: `handleInv` holds after any event sequence from a state
satisfying it. -/
theorem handleInv_runEvents (es : List VMEvent) (vm : MicroVM) (h : handleInv vm) :
    handleInv (runEvents vm es) := by
  induction es generalizing vm with
  | nil => exact h
  | cons e rest ih => exact ih (applyEvent vm e) (handleInv_applyEvent vm e h)

/-- Helper: replacing every record of matching id by `vm` is the identity
when every matching record already is `vm`. -/
theorem map_replace_id_eq (l : List MicroVM) (vm : MicroVM)
    (hmem : ∀ w ∈ l, w.id = vm.id → w = vm) :
    l.map (fun w => if w.id = vm.id then vm else w) = l := by
  induction l with
  | nil => rfl
  | cons x xs ih =>
      have hx : (if x.id = vm.id then vm else x) = x := by
        by_cases h : x.id = vm.id
        · rw [if_pos h]
          exact (hmem x (List.mem_cons_self x xs) h).symm
        · rw [if_neg h]
      rw [List.map_cons, hx,
        ih (fun w hw hid => hmem w (List.mem_cons_of_mem _ hw) hid)]

/-- The record fixture left behind by a successful spawn followed by an
asynchronous subprocess exit. -/
def vmAfterExit : MicroVM :=
  runEvents (freshRecord "vm-3-3" "cache" "/tmp/firecracker-vm-3-3.socket" none)
    [VMEvent.spawnOk, VMEvent.asyncExit]

/-- C2: the claim is false on the code — after a successful spawn followed
by an asynchronous subprocess exit, the started flag is false while the
process handle and both console handles are still non-null (the monitor
goroutine clears only `started` and `proxy`). -/
theorem c2_handles_counterexample :
    (runEvents (freshRecord "vm-1-1" "web" "/tmp/firecracker-vm-1-1.socket" none)
        [VMEvent.spawnOk, VMEvent.asyncExit]).started = false ∧
    (runEvents (freshRecord "vm-1-1" "web" "/tmp/firecracker-vm-1-1.socket" none)
        [VMEvent.spawnOk, VMEvent.asyncExit]).fcProcess = true ∧
    (runEvents (freshRecord "vm-1-1" "web" "/tmp/firecracker-vm-1-1.socket" none)
        [VMEvent.spawnOk, VMEvent.asyncExit]).consoleIn = true ∧
    (runEvents (freshRecord "vm-1-1" "web" "/tmp/firecracker-vm-1-1.socket" none)
        [VMEvent.spawnOk, VMEvent.asyncExit]).consoleOut = true := by
  decide

/-- C2 amended: in every state reachable from a freshly created record by
spawn, spawn failure, asynchronous exit and stop, started=true implies the
process handle, both console handles and the proxy handle are non-null,
and the proxy handle is non-null exactly when started is true; but when
started is false the process and console handles may remain non-null
(asynchronous exit clears only started and proxy; stop never clears the
console handles). -/
theorem c2_handles_amended (vm : MicroVM) (es : List VMEvent)
    (h0 : vm.fcProcess = false ∧ vm.proxy = false ∧ vm.consoleIn = false ∧
          vm.consoleOut = false ∧ vm.started = false) :
    ((runEvents vm es).started = true →
      (runEvents vm es).fcProcess = true ∧ (runEvents vm es).consoleIn = true ∧
      (runEvents vm es).consoleOut = true ∧ (runEvents vm es).proxy = true) ∧
    ((runEvents vm es).proxy = true ↔ (runEvents vm es).started = true) := by
  have h : handleInv vm := by
    obtain ⟨hF, hP, hI, hO, hS⟩ := h0
    constructor
    · intro hs; simp [hS] at hs
    · simp [hP, hS]
  exact handleInv_runEvents es vm h

/-- Witness for `c2_handles_amended` at a fresh record and a concrete
event list. -/
theorem c2_handles_amended_witness :
    ((freshRecord "vm-2-2" "db" "/tmp/firecracker-vm-2-2.socket" none).fcProcess = false ∧
     (freshRecord "vm-2-2" "db" "/tmp/firecracker-vm-2-2.socket" none).proxy = false ∧
     (freshRecord "vm-2-2" "db" "/tmp/firecracker-vm-2-2.socket" none).consoleIn = false ∧
     (freshRecord "vm-2-2" "db" "/tmp/firecracker-vm-2-2.socket" none).consoleOut = false ∧
     (freshRecord "vm-2-2" "db" "/tmp/firecracker-vm-2-2.socket" none).started = false) ∧
    (((runEvents (freshRecord "vm-2-2" "db" "/tmp/firecracker-vm-2-2.socket" none)
          [VMEvent.spawnOk]).started = true →
       (runEvents (freshRecord "vm-2-2" "db" "/tmp/firecracker-vm-2-2.socket" none)
          [VMEvent.spawnOk]).fcProcess = true ∧
       (runEvents (freshRecord "vm-2-2" "db" "/tmp/firecracker-vm-2-2.socket" none)
          [VMEvent.spawnOk]).consoleIn = true ∧
       (runEvents (freshRecord "vm-2-2" "db" "/tmp/firecracker-vm-2-2.socket" none)
          [VMEvent.spawnOk]).consoleOut = true ∧
       (runEvents (freshRecord "vm-2-2" "db" "/tmp/firecracker-vm-2-2.socket" none)
          [VMEvent.spawnOk]).proxy = true) ∧
     ((runEvents (freshRecord "vm-2-2" "db" "/tmp/firecracker-vm-2-2.socket" none)
          [VMEvent.spawnOk]).proxy = true ↔
      (runEvents (freshRecord "vm-2-2" "db" "/tmp/firecracker-vm-2-2.socket" none)
          [VMEvent.spawnOk]).started = true)) :=
  ⟨by decide,
   c2_handles_amended (freshRecord "vm-2-2" "db" "/tmp/firecracker-vm-2-2.socket" none)
     [VMEvent.spawnOk] (by decide)⟩

/-- C6: the second half of the claim is false on the code — invoking stop
on a record whose subprocess has already exited (asynchronous exit
observed, started now false) returns success but clears nothing: the
record is returned entirely unchanged, its process handle still set. -/
theorem c6_stop_counterexample :
    (stopFirecrackerForVM vmAfterExit true true).2 = true ∧
    (stopFirecrackerForVM vmAfterExit true true).1.fcProcess = true ∧
    (stopFirecrackerForVM vmAfterExit true true).1 = vmAfterExit := by
  decide

/-- C6 amended: stop is a no-op returning success whenever the started
flag is false, leaving every field of the record untouched — in
particular, it does not clear the process or console handles left over
from an already-exited subprocess; when started is true and the interrupt
signal is delivered, it returns success and clears started, the process
handle and the proxy handle. -/
theorem c6_stop_amended (vm : MicroVM) (sOk kOk : Bool) :
    (vm.started = false → stopFirecrackerForVM vm sOk kOk = (vm, true)) ∧
    (vm.started = true → vm.fcProcess = true → sOk = true →
      stopFirecrackerForVM vm sOk kOk
        = ({ vm with started := false, fcProcess := false, proxy := false }, true)) := by
  constructor
  · intro hs
    simp [stopFirecrackerForVM, hs]
  · intro hs hf hsig
    simp [stopFirecrackerForVM, hs, hf, hsig]

/-- Witness for `c6_stop_amended`: a stopped record is left untouched with
a success result. -/
theorem c6_stop_amended_witness :
    vmAfterExit.started = false ∧
    stopFirecrackerForVM vmAfterExit true true = (vmAfterExit, true) :=
  ⟨by decide, (c6_stop_amended vmAfterExit true true).1 (by decide)⟩

/-- C3: the claim is false on the code — a successful DELETE writes the
implicit status 200 (no `WriteHeader(204)` is ever issued) together with
the non-empty JSON body `{"status":"deleted","id":<id>}`. -/
theorem c3_delete_counterexample :
    (deleteMicroVM agentOne vmRunning false true true).1 = 200 ∧
    ¬ (deleteMicroVM agentOne vmRunning false true true).1 = 204 ∧
    (deleteMicroVM agentOne vmRunning false true true).2.1
      = some ⟨"deleted", "vm-1-1"⟩ := by
  decide

/-- C3 amended: for every existing record, a successful DELETE (stop
succeeded, or force=true given) responds with HTTP status 200 and the JSON
body `{"status":"deleted","id":<id>}`, not 204 with an empty body. -/
theorem c3_delete_amended (a : Agent) (vm : MicroVM) (force sOk kOk : Bool)
    (h : (stopFirecrackerForVM vm sOk kOk).2 = true ∨ force = true) :
    (deleteMicroVM a vm force sOk kOk).1 = 200 ∧
    (deleteMicroVM a vm force sOk kOk).2.1 = some ⟨"deleted", vm.id⟩ := by
  unfold deleteMicroVM
  rcases h with h | h <;> simp [h]

/-- Witness for `c3_delete_amended` on the one-record agent fixture. -/
theorem c3_delete_amended_witness :
    ((stopFirecrackerForVM vmRunning true true).2 = true ∨ false = true) ∧
    (deleteMicroVM agentOne vmRunning false true true).1 = 200 ∧
    (deleteMicroVM agentOne vmRunning false true true).2.1
      = some ⟨"deleted", vmRunning.id⟩ :=
  ⟨Or.inl (by decide),
   c3_delete_amended agentOne vmRunning false true true (Or.inl (by decide))⟩

/-- C9: the delete handler removes the record from the registry iff stop
succeeded or the request carried force=true; when stop fails and force is
absent, it responds 500 and the agent state — registry and record fields —
is exactly unchanged. -/
theorem c9_delete_iff (a : Agent) (vm : MicroVM) (force sOk kOk : Bool)
    (hmem : ∀ w ∈ a.microVMs, w.id = vm.id → w = vm) :
    ((stopFirecrackerForVM vm sOk kOk).2 = true ∨ force = true →
      (deleteMicroVM a vm force sOk kOk).2.2.microVMs
        = a.microVMs.filter (fun w => w.id ≠ vm.id)) ∧
    ((stopFirecrackerForVM vm sOk kOk).2 = false → force = false →
      (deleteMicroVM a vm force sOk kOk).1 = 500 ∧
      (deleteMicroVM a vm force sOk kOk).2.2 = a) := by
  constructor
  · intro h
    unfold deleteMicroVM
    rcases h with h | h <;> simp [h]
  · intro hstop hforce
    have hrec := stopFirecrackerForVM_error_eq vm sOk kOk hstop
    unfold deleteMicroVM
    simp only [hstop, hforce, hrec, map_replace_id_eq a.microVMs vm hmem]
    exact ⟨rfl, rfl⟩

/-- Witness for `c9_delete_iff`: a failing stop without force leaves the
one-record agent untouched with a 500. -/
theorem c9_delete_iff_witness :
    (∀ w ∈ agentOne.microVMs, w.id = vmRunning.id → w = vmRunning) ∧
    (((stopFirecrackerForVM vmRunning false false).2 = true ∨ false = true →
       (deleteMicroVM agentOne vmRunning false false false).2.2.microVMs
         = agentOne.microVMs.filter (fun w => w.id ≠ vmRunning.id)) ∧
     ((stopFirecrackerForVM vmRunning false false).2 = false → false = false →
       (deleteMicroVM agentOne vmRunning false false false).1 = 500 ∧
       (deleteMicroVM agentOne vmRunning false false false).2.2 = agentOne)) :=
  ⟨by decide, c9_delete_iff agentOne vmRunning false false false (by decide)⟩

/-- Helper: `find?` returns the first matching element of a split list
when everything before it fails the predicate. -/
theorem find?_first_match (p : MicroVM → Bool) (l1 l2 : List MicroVM) (v : MicroVM)
    (hv : p v = true) (hl1 : ∀ w ∈ l1, p w = false) :
    (l1 ++ v :: l2).find? p = some v := by
  induction l1 with
  | nil => simp [List.find?_cons_of_pos, hv]
  | cons w ws ih =>
      have hw : p w = false := hl1 w (List.mem_cons_self w ws)
      rw [List.cons_append, List.find?_cons_of_neg _ (by simp [hw]),
        ih (fun x hx => hl1 x (List.mem_cons_of_mem _ hx))]

/-- A record whose identifier the resolve token is a strict prefix of. -/
def vmLong : MicroVM :=
  freshRecord "vm-123456" "other" "/tmp/firecracker-vm-123456.socket" none

/-- A record whose name equals the resolve token exactly. -/
def vmNamed : MicroVM :=
  freshRecord "vm-7-7" "vm-123" "/tmp/firecracker-vm-7-7.socket" none

/-- Registry fixture with the prefix-matching record earlier in iteration
order than the exact-name record. -/
def agentTwo : Agent :=
  { config := agentCfgFix, microVMs := [vmLong, vmNamed], idCounter := 2,
    legacyVM := none }

/-- The same two records in the opposite iteration order. -/
def agentTwoSwapped : Agent :=
  { config := agentCfgFix, microVMs := [vmNamed, vmLong], idCounter := 2,
    legacyVM := none }

/-- C4: the claim is false on the code — the token "vm-123" is the exact
name of `vmNamed` and a prefix of `vmLong`'s identifier, yet with
`vmLong` earlier in iteration order the resolve returns `vmLong`: name
matches take no precedence over identifier-prefix matches (both are tested
in one scan of the map). -/
theorem c4_resolve_counterexample :
    getVMByIDOrName agentTwo "vm-123" = some vmLong ∧
    ¬ vmLong.name = "vm-123" ∧
    vmNamed ∈ agentTwo.microVMs ∧ vmNamed.name = "vm-123" ∧
    ¬ vmNamed.id = vmLong.id := by
  decide

/-- C4 amended: resolve prefers an exact identifier match; failing that it
scans the registry once in iteration order and returns the first record
matching by exact name or by identifier prefix, with no preference between
those two kinds of match. -/
theorem c4_resolve_amended (a : Agent) (t : String) (l1 l2 : List MicroVM) (v : MicroVM)
    (hreg : a.microVMs = l1 ++ v :: l2)
    (hid : ∀ w ∈ a.microVMs, ¬ w.id = t)
    (hv : v.name = t ∨ strHasPfx t v.id = true)
    (hl1 : ∀ w ∈ l1, ¬ w.name = t ∧ strHasPfx t w.id = false) :
    getVMByIDOrName a t = some v := by
  unfold getVMByIDOrName
  have h1 : a.microVMs.find? (fun vm => vm.id = t) = none := by
    apply List.find?_eq_none.mpr
    intro x hx
    simpa using hid x hx
  have h2 : a.microVMs.find?
      (fun vm => vm.name = t || strHasPfx t vm.id) = some v := by
    rw [hreg]
    apply find?_first_match
    · rcases hv with hv | hv <;> simp [hv]
    · intro w hw
      obtain ⟨hn, hs⟩ := hl1 w hw
      simp [hn, hs]
  rw [h1, h2]

/-- Witness for `c4_resolve_amended`: with the exact-name record first in
iteration order, that record is returned. -/
theorem c4_resolve_amended_witness :
    (agentTwoSwapped.microVMs = [] ++ vmNamed :: [vmLong]) ∧
    (∀ w ∈ agentTwoSwapped.microVMs, ¬ w.id = "vm-123") ∧
    (vmNamed.name = "vm-123" ∨ strHasPfx "vm-123" vmNamed.id = true) ∧
    (∀ w ∈ ([] : List MicroVM),
      ¬ w.name = "vm-123" ∧ strHasPfx "vm-123" w.id = false) ∧
    getVMByIDOrName agentTwoSwapped "vm-123" = some vmNamed :=
  ⟨by decide, by decide, by decide, by decide,
   c4_resolve_amended agentTwoSwapped "vm-123" [] [vmLong] vmNamed (by decide)
     (by decide) (by decide) (by decide)⟩

/-- A registry record that is not the legacy record. -/
def vmFirst : MicroVM :=
  freshRecord "vm-5-1" "alpha" "/tmp/firecracker-vm-5-1.socket" none

/-- Agent fixture with no legacy record and a non-empty registry. -/
def agentNoLegacy : Agent :=
  { config := agentCfgFix, microVMs := [vmFirst], idCounter := 1, legacyVM := none }

/-- An existing legacy singleton record. -/
def legacyRec : MicroVM := freshRecord "legacy" "default" "/tmp/firecracker.socket" none

/-- Agent fixture whose legacy slot is already populated. -/
def agentLegacy : Agent :=
  { config := agentCfgFix, microVMs := [vmFirst], idCounter := 1,
    legacyVM := some legacyRec }

/-- C5: the claim is false on the code — with the legacy slot still empty
and a non-empty registry, an un-prefixed request without the X-MicroVM-ID
header is proxied to the first registry record encountered, not to the
implicit record with identifier "legacy" (which is not even created). -/
theorem c5_proxy_counterexample :
    (handleProxyTarget agentNoLegacy "/some-path" none).1 = some vmFirst ∧
    ¬ vmFirst.id = "legacy" ∧
    (handleProxyTarget agentNoLegacy "/some-path" none).2 = agentNoLegacy := by
  decide

/-- C5 amended: a request matching no agent route and carrying no
X-MicroVM-ID header targets the legacy record when that slot is populated;
with an empty legacy slot it falls back to the first registry record in
iteration order; only when the registry is also empty is the implicit
record with identifier "legacy" lazily created and targeted. -/
theorem c5_proxy_amended (a : Agent) (path : String)
    (hp : strHasPfx "/microvms/" path = false) :
    (∀ l, a.legacyVM = some l → handleProxyTarget a path none = (some l, a)) ∧
    (∀ v rest, a.legacyVM = none → a.microVMs = v :: rest →
      handleProxyTarget a path none = (some v, a)) ∧
    (a.legacyVM = none → a.microVMs = [] →
      (handleProxyTarget a path none).1
        = some (freshRecord "legacy" "default" a.config.socketPath none) ∧
      (handleProxyTarget a path none).2.legacyVM
        = some (freshRecord "legacy" "default" a.config.socketPath none)) := by
  refine ⟨?_, ?_, ?_⟩
  · intro l hl
    simp [handleProxyTarget, hp, hl]
  · intro v rest hl hm
    simp [handleProxyTarget, hp, hl, hm]
  · intro hl hm
    simp [handleProxyTarget, hp, hl, hm]

/-- Witness for `c5_proxy_amended`: a populated legacy slot is targeted. -/
theorem c5_proxy_amended_witness :
    strHasPfx "/microvms/" "/agent-misc" = false ∧
    handleProxyTarget agentLegacy "/agent-misc" none = (some legacyRec, agentLegacy) :=
  ⟨by decide, (c5_proxy_amended agentLegacy "/agent-misc" (by decide)).1 legacyRec rfl⟩

/-- The config `createMicroVM` snapshots after applying the zero-value
defaults. -/
def effConfig (req : CreateMicroVMRequest) : MicroVMConfig :=
  { vcpus := if req.vcpus = 0 then 1 else req.vcpus,
    memoryMiB := if req.memoryMiB = 0 then 128 else req.memoryMiB,
    kernel := req.kernel, rootfs := req.rootfs,
    bootArgs := if req.bootArgs = "" then "console=ttyS0 reboot=k panic=1 pci=off"
                else req.bootArgs }

/-- The identifier `generateID` produces for the given wall clock and
post-increment counter value. -/
def effID (now counter : Nat) : String := s!"vm-{now}-{counter}"

/-- The name `createMicroVM` chooses: the supplied one, or the
counter-derived default. -/
def effName (req : CreateMicroVMRequest) (counter : Nat) : String :=
  if req.name = "" then s!"microvm-{counter}" else req.name

/-- The per-record socket path derived from the identifier. -/
def effSocket (now counter : Nat) : String :=
  s!"/tmp/firecracker-{effID now counter}.socket"

/-- The record a successful create leaves in the registry: the fresh
record after the spawn event. -/
def effVM (req : CreateMicroVMRequest) (now counter : Nat) : MicroVM :=
  { id := effID now counter, name := effName req counter,
    socketPath := effSocket now counter, config := some (effConfig req),
    fcProcess := true, proxy := true, consoleIn := true, consoleOut := true,
    started := true }

/-- Helper: the full success-path equation for `createMicroVM`: valid
fields, free capacity, fresh name, spawn succeeded, every Firecracker call
succeeded. -/
theorem createMicroVM_success (a : Agent) (req : CreateMicroVMRequest)
    (now pid : Nat) (net : String → Option Nat)
    (h1 : ¬ req.kernel = "") (h2 : ¬ req.rootfs = "")
    (hcap : a.microVMs.length < a.config.maxMicroVMs)
    (hname : a.microVMs.any (fun vm => vm.name = effName req (a.idCounter + 1)) = false)
    (hnet : ∀ u, putJSON net u = true) :
    createMicroVM a req now pid true net
      = ⟨201,
         some ⟨effID now (a.idCounter + 1), effName req (a.idCounter + 1), true, pid,
               some (effConfig req)⟩,
         { a with idCounter := a.idCounter + 1,
                  microVMs := a.microVMs ++ [effVM req now (a.idCounter + 1)] },
         true,
         fcSequence (effVM req now (a.idCounter + 1)) (effConfig req)⟩ := by
  have hcap' := Nat.not_le.mpr hcap
  have hcfg2 : (configureAndStartVM (effVM req now (a.idCounter + 1)) net).2 = true := by
    have he : configureAndStartVM (effVM req now (a.idCounter + 1)) net
        = runPuts net (fcSequence (effVM req now (a.idCounter + 1)) (effConfig req)) := rfl
    rw [he, runPuts_ok_iff]
    intro call _
    exact hnet call.url
  have hcfg1 : (configureAndStartVM (effVM req now (a.idCounter + 1)) net).1
      = fcSequence (effVM req now (a.idCounter + 1)) (effConfig req) := by
    have he : configureAndStartVM (effVM req now (a.idCounter + 1)) net
        = runPuts net (fcSequence (effVM req now (a.idCounter + 1)) (effConfig req)) := rfl
    rw [he]
    exact runPuts_ok_trace net _ (by rw [← he]; exact hcfg2)
  have hvm : applyEvent
      (freshRecord (effID now (a.idCounter + 1)) (effName req (a.idCounter + 1))
        (effSocket now (a.idCounter + 1)) (some (effConfig req))) VMEvent.spawnOk
      = effVM req now (a.idCounter + 1) := rfl
  simp only [createMicroVM, if_neg h1, if_neg h2, if_neg hcap',
    effName, effID, effSocket, effConfig, effVM] at *
  simp only [hname, Bool.false_eq_true, if_false, Bool.true_eq_false, hvm, hcfg2, hcfg1]

/-- A network oracle on which every Firecracker call returns 204. -/
def okNet : String → Option Nat := fun _ => some 204

/-- C7: for every record with a non-null desired config, configureAndStart
issues PUT calls against the record's own socket following the fixed
four-call order boot-source, drives/rootfs, machine-config, actions with
the specified JSON bodies and a 10-second client timeout; it succeeds iff
all four calls succeed (then exactly the four calls were issued), and on a
status ≥400 or transport failure no later call is issued and the whole
operation returns an error. -/
theorem c7_configure_sequence (vm : MicroVM) (c : MicroVMConfig)
    (net : String → Option Nat) (hc : vm.config = some c) :
    configClientTimeoutSeconds = 10 ∧
    (fcSequence vm c).map PutCall.url
      = ["http://localhost/boot-source", "http://localhost/drives/rootfs",
         "http://localhost/machine-config", "http://localhost/actions"] ∧
    (fcSequence vm c).map PutCall.body
      = [bootSourceBody c, rootfsDriveBody c, machineConfigBody c, actionBody] ∧
    (∀ call ∈ (configureAndStartVM vm net).1, call.socket = vm.socketPath) ∧
    (∃ rest, (configureAndStartVM vm net).1 ++ rest = fcSequence vm c) ∧
    ((configureAndStartVM vm net).2 = true ↔
      ∀ call ∈ fcSequence vm c, putJSON net call.url = true) ∧
    ((configureAndStartVM vm net).2 = true →
      (configureAndStartVM vm net).1 = fcSequence vm c) ∧
    ((configureAndStartVM vm net).2 = false →
      ∃ pre fail, (configureAndStartVM vm net).1 = pre ++ [fail] ∧
        putJSON net fail.url = false ∧ ∀ call ∈ pre, putJSON net call.url = true) := by
  have hrun : configureAndStartVM vm net = runPuts net (fcSequence vm c) := by
    simp [configureAndStartVM, hc]
  refine ⟨rfl, rfl, rfl, ?_, ?_, ?_, ?_, ?_⟩
  · intro call hcall
    rw [hrun] at hcall
    have hmem := runPuts_trace_subset net (fcSequence vm c) call hcall
    simp only [fcSequence, List.mem_cons, List.not_mem_nil, or_false] at hmem
    rcases hmem with h | h | h | h <;> simp [h]
  · rw [hrun]
    exact runPuts_trace_append net (fcSequence vm c)
  · rw [hrun]
    exact runPuts_ok_iff net (fcSequence vm c)
  · rw [hrun]
    exact runPuts_ok_trace net (fcSequence vm c)
  · rw [hrun]
    exact runPuts_fail_trace net (fcSequence vm c)

/-- Witness for `c7_configure_sequence`: on the all-204 oracle the
configured record's full four-call trace is issued with success. -/
theorem c7_configure_sequence_witness :
    vmRunning.config = some cfgFix ∧
    (configureAndStartVM vmRunning okNet).2 = true ∧
    (configureAndStartVM vmRunning okNet).1 = fcSequence vmRunning cfgFix :=
  ⟨rfl, by decide,
   (c7_configure_sequence vmRunning cfgFix okNet rfl).2.2.2.2.2.2.1 (by decide)⟩

/-- C8: create rejects an empty kernel or rootfs with 400 leaving the
agent untouched and spawning nothing; otherwise omitted vcpus defaults to
1, omitted memory to 128, omitted boot args to the documented string and
an omitted name to the counter-derived default (the first such create is
named "microvm-1"), and the 201 response carries exactly these values. -/
theorem c8_create_validation_defaults (a : Agent) (req : CreateMicroVMRequest)
    (now pid : Nat) (spawnOk : Bool) (net : String → Option Nat) :
    (req.kernel = "" →
      createMicroVM a req now pid spawnOk net = ⟨400, none, a, false, []⟩) ∧
    (¬ req.kernel = "" → req.rootfs = "" →
      createMicroVM a req now pid spawnOk net = ⟨400, none, a, false, []⟩) ∧
    (¬ req.kernel = "" → ¬ req.rootfs = "" →
      a.microVMs.length < a.config.maxMicroVMs →
      a.microVMs.any (fun vm => vm.name = effName req (a.idCounter + 1)) = false →
      spawnOk = true → (∀ u, putJSON net u = true) →
      (createMicroVM a req now pid spawnOk net).status = 201 ∧
      (createMicroVM a req now pid spawnOk net).info
        = some ⟨effID now (a.idCounter + 1), effName req (a.idCounter + 1), true, pid,
                some (effConfig req)⟩ ∧
      (req.name = "" → a.idCounter = 0 →
        (createMicroVM a req now pid spawnOk net).info
          = some ⟨effID now 1, "microvm-1", true, pid, some (effConfig req)⟩)) := by
  refine ⟨?_, ?_, ?_⟩
  · intro h
    simp [createMicroVM, h]
  · intro h1 h2
    simp [createMicroVM, h1, h2]
  · intro h1 h2 hcap hname hsp hnet
    subst hsp
    rw [createMicroVM_success a req now pid net h1 h2 hcap hname hnet]
    refine ⟨rfl, rfl, ?_⟩
    intro hn hz
    rw [hz]
    simp [effName, hn]
    rfl

/-- Witness for `c8_create_validation_defaults`: the minimal happy path on
a fresh agent yields 201 with name "microvm-1" and the default config. -/
theorem c8_create_validation_defaults_witness :
    ¬ ({ name := "", kernel := "/k", rootfs := "/r", vcpus := 0, memoryMiB := 0,
         bootArgs := "" } : CreateMicroVMRequest).kernel = "" ∧
    (createMicroVM (newAgent ⟨0, 0, "/usr/bin/firecracker", "", 0⟩)
        ⟨"", "/k", "/r", 0, 0, ""⟩ 100 42 true okNet).info
      = some ⟨effID 100 1, "microvm-1", true, 42,
              some (effConfig ⟨"", "/k", "/r", 0, 0, ""⟩)⟩ :=
  ⟨by decide,
   ((c8_create_validation_defaults (newAgent ⟨0, 0, "/usr/bin/firecracker", "", 0⟩)
       ⟨"", "/k", "/r", 0, 0, ""⟩ 100 42 true okNet).2.2
     (by decide) (by decide) (by decide) (by decide) rfl (fun _ => rfl)).2.2 rfl rfl⟩

/-- C10: request fields equal to the Go zero value are indistinguishable
from absent ones — vcpus=0, memory_mib=0 and boot_args="" are replaced by
the defaults — while negative vcpus and memory values pass validation
(201) and are forwarded unchanged in the machine-config call body. -/
theorem c10_zero_defaults_negative_forwarded (a : Agent) (req : CreateMicroVMRequest)
    (now pid : Nat) (net : String → Option Nat)
    (h1 : ¬ req.kernel = "") (h2 : ¬ req.rootfs = "")
    (hcap : a.microVMs.length < a.config.maxMicroVMs)
    (hname : a.microVMs.any (fun vm => vm.name = effName req (a.idCounter + 1)) = false)
    (hnet : ∀ u, putJSON net u = true) :
    (createMicroVM a req now pid true net).status = 201 ∧
    (req.vcpus = 0 → (effConfig req).vcpus = 1) ∧
    (req.memoryMiB = 0 → (effConfig req).memoryMiB = 128) ∧
    (req.bootArgs = "" →
      (effConfig req).bootArgs = "console=ttyS0 reboot=k panic=1 pci=off") ∧
    (createMicroVM a req now pid true net).info
      = some ⟨effID now (a.idCounter + 1), effName req (a.idCounter + 1), true, pid,
              some (effConfig req)⟩ ∧
    (req.vcpus < 0 → req.memoryMiB < 0 →
      (⟨effSocket now (a.idCounter + 1), "http://localhost/machine-config",
        [("vcpu_count", JVal.int req.vcpus),
         ("mem_size_mib", JVal.int req.memoryMiB)]⟩ : PutCall)
        ∈ (createMicroVM a req now pid true net).calls) := by
  rw [createMicroVM_success a req now pid net h1 h2 hcap hname hnet]
  refine ⟨rfl, ?_, ?_, ?_, rfl, ?_⟩
  · intro h
    simp [effConfig, h]
  · intro h
    simp [effConfig, h]
  · intro h
    simp [effConfig, h]
  · intro hv hm
    have hv' : ¬ req.vcpus = 0 := by omega
    have hm' : ¬ req.memoryMiB = 0 := by omega
    have e : machineConfigBody (effConfig req)
        = [("vcpu_count", JVal.int req.vcpus), ("mem_size_mib", JVal.int req.memoryMiB)] := by
      simp [machineConfigBody, effConfig, hv', hm']
    have e2 : (effVM req now (a.idCounter + 1)).socketPath
        = effSocket now (a.idCounter + 1) := rfl
    simp [fcSequence, e, e2]

/-- Witness for `c10_zero_defaults_negative_forwarded`: a request with
vcpus = -2 and memory_mib = -64 is accepted and the values are forwarded
verbatim to the machine-config call. -/
theorem c10_zero_defaults_negative_forwarded_witness :
    ¬ ({ name := "neg", kernel := "/k", rootfs := "/r", vcpus := -2,
         memoryMiB := -64, bootArgs := "x" } : CreateMicroVMRequest).kernel = "" ∧
    (⟨effSocket 100 1, "http://localhost/machine-config",
      [("vcpu_count", JVal.int (-2)), ("mem_size_mib", JVal.int (-64))]⟩ : PutCall)
      ∈ (createMicroVM (newAgent ⟨0, 0, "/usr/bin/firecracker", "", 0⟩)
          ⟨"neg", "/k", "/r", -2, -64, "x"⟩ 100 42 true okNet).calls :=
  ⟨by decide,
   (c10_zero_defaults_negative_forwarded (newAgent ⟨0, 0, "/usr/bin/firecracker", "", 0⟩)
       ⟨"neg", "/k", "/r", -2, -64, "x"⟩ 100 42 okNet (by decide) (by decide)
       (by decide) (by decide) (fun _ => rfl)).2.2.2.2.2 (by decide) (by decide)⟩

/-- Initial state of two concurrent creates racing for the same name on a
fresh registry with the default cap. -/
def c1Init : TwoCreateState :=
  { reg := [], maxVMs := 10, n1 := "x", n2 := "x", t1 := .ready, t2 := .ready }

/-- C1: the atomicity part of the claim is false on the code — the cap
check, the name check and the insertion are three separate lock holds (two
reader holds and one writer hold), so the interleaving in which both
creates pass their name checks before either inserts ends with both
succeeding and the registry holding a duplicate name. -/
theorem c1_insert_counterexample :
    (runSchedule c1Init [true, false, true, false, true, false]).reg = ["x", "x"] ∧
    (runSchedule c1Init [true, false, true, false, true, false]).t1 = .done 201 ∧
    (runSchedule c1Init [true, false, true, false, true, false]).t2 = .done 201 ∧
    ¬ (runSchedule c1Init [true, false, true, false, true, false]).reg.Nodup := by
  decide

/-- C1 amended: executed without interference, the create path refuses a
duplicate live name with 409 and a full registry with 429, leaving the
registry unchanged, and otherwise inserts the record; but the two checks
run under separate reader holds and the insertion under a later writer
hold with no re-check, so an interleaving of two concurrent creates can
admit a duplicate name. -/
theorem c1_insert_checks_amended (a : Agent) (req : CreateMicroVMRequest)
    (now pid : Nat) (spawnOk : Bool) (net : String → Option Nat)
    (h1 : ¬ req.kernel = "") (h2 : ¬ req.rootfs = "") :
    (a.config.maxMicroVMs ≤ a.microVMs.length →
      (createMicroVM a req now pid spawnOk net).status = 429 ∧
      (createMicroVM a req now pid spawnOk net).agent.microVMs = a.microVMs) ∧
    (a.microVMs.length < a.config.maxMicroVMs →
      a.microVMs.any (fun vm => vm.name = effName req (a.idCounter + 1)) = true →
      (createMicroVM a req now pid spawnOk net).status = 409 ∧
      (createMicroVM a req now pid spawnOk net).agent.microVMs = a.microVMs) ∧
    (a.microVMs.length < a.config.maxMicroVMs →
      a.microVMs.any (fun vm => vm.name = effName req (a.idCounter + 1)) = false →
      spawnOk = true → (∀ u, putJSON net u = true) →
      (createMicroVM a req now pid spawnOk net).status = 201 ∧
      (createMicroVM a req now pid spawnOk net).agent.microVMs
        = a.microVMs ++ [effVM req now (a.idCounter + 1)]) ∧
    (∃ sched : List Bool,
      (runSchedule c1Init sched).t1 = .done 201 ∧
      (runSchedule c1Init sched).t2 = .done 201 ∧
      ¬ (runSchedule c1Init sched).reg.Nodup) := by
  refine ⟨?_, ?_, ?_, ?_⟩
  · intro hle
    simp [createMicroVM, h1, h2, hle]
  · intro hcap hdup
    have hcap' := Nat.not_le.mpr hcap
    simp only [createMicroVM, if_neg h1, if_neg h2, if_neg hcap', effName] at *
    simp [hdup]
  · intro hcap hname hsp hnet
    subst hsp
    rw [createMicroVM_success a req now pid net h1 h2 hcap hname hnet]
    exact ⟨rfl, rfl⟩
  · exact ⟨[true, false, true, false, true, false], by decide, by decide, by decide⟩

/-- A live record named "x", racing target of the witness create. -/
def vmX : MicroVM := freshRecord "vm-9-9" "x" "/tmp/firecracker-vm-9-9.socket" none

/-- Agent fixture holding `vmX`. -/
def agentX : Agent :=
  { config := agentCfgFix, microVMs := [vmX], idCounter := 9, legacyVM := none }

/-- Witness for `c1_insert_checks_amended`: a sequential create against an
existing name is refused with 409 and does not change the registry. -/
theorem c1_insert_checks_amended_witness :
    ¬ ({ name := "x", kernel := "/k", rootfs := "/r", vcpus := 1, memoryMiB := 128,
         bootArgs := "b" } : CreateMicroVMRequest).kernel = "" ∧
    ((createMicroVM agentX ⟨"x", "/k", "/r", 1, 128, "b"⟩ 7 1 true okNet).status = 409 ∧
     (createMicroVM agentX ⟨"x", "/k", "/r", 1, 128, "b"⟩ 7 1 true okNet).agent.microVMs
       = agentX.microVMs) :=
  ⟨by decide,
   (c1_insert_checks_amended agentX ⟨"x", "/k", "/r", 1, 128, "b"⟩ 7 1 true okNet
       (by decide) (by decide)).2.1 (by decide) (by decide)⟩
end FCAgent
